import Mathlib

/-!
Verification of the LUCAS soil-pH notebooks.

The repository consists of two notebooks that load the LUCAS soil survey
table, filter categorical columns, drop rows with a missing `pH_H2O`
target, engineer six ratio/interaction features, preprocess (impute /
power-transform / scale numerics, one-hot encode categoricals), and build
and tune keras regression networks.

This file gives a shallow embedding of the data-frame manipulations and of
the model-builder / hyperparameter-search logic, and proves the spec's
testable properties about them.  A pandas data frame is modelled as a
header of column names plus a list of rows of cells; a missing value (NaN)
is the cell `Cell.na`.
-/

namespace Lucas

/-- A pandas cell value: `na` models a missing value (NaN) and also the
non-finite results of float arithmetic (NaN/±inf); `num` is a finite
numeric value (floats modelled as rationals); `str` is a string value. -/
inductive Cell where
  | na : Cell
  | num : Rat → Cell
  | str : String → Cell
deriving DecidableEq

/-- Whether a cell holds a string.  Used to model pandas
`select_dtypes(include=[np.number])`: a column containing a string value is
an object column, otherwise it is numeric. -/
def Cell.isStr : Cell → Bool
  | Cell.str _ => true
  | _ => false

/-- One cell of `Series.replace(0, 0.001)`: an exact numeric zero becomes
0.001, every other cell is unchanged. -/
def Cell.replace0 : Cell → Cell
  | Cell.num q => if q = 0 then Cell.num (1/1000) else Cell.num q
  | c => c

/-- Elementwise float division.  Division by an exact zero yields a
non-finite float (±inf, or NaN for 0/0), and any operation on a missing or
non-numeric operand yields NaN; all of these non-finite outcomes are
modelled as `na`. -/
def Cell.div : Cell → Cell → Cell
  | Cell.num a, Cell.num b => if b = 0 then Cell.na else Cell.num (a / b)
  | _, _ => Cell.na

/-- Elementwise addition; a missing or non-numeric operand yields NaN. -/
def Cell.add : Cell → Cell → Cell
  | Cell.num a, Cell.num b => Cell.num (a + b)
  | _, _ => Cell.na

/-- Elementwise multiplication; a missing or non-numeric operand yields NaN. -/
def Cell.mul : Cell → Cell → Cell
  | Cell.num a, Cell.num b => Cell.num (a * b)
  | _, _ => Cell.na

/-- Apply a unary numeric function to a cell (e.g. `np.log1p`); a missing
or non-numeric operand yields NaN. -/
def Cell.map1 (f : Rat → Rat) : Cell → Cell
  | Cell.num a => Cell.num (f a)
  | _ => Cell.na

/-- A data frame: a header of column names and a list of rows. -/
structure Table where
  header : List String
  rows : List (List Cell)

/-- Well-formedness: every row has exactly one cell per header entry
(pandas frames are rectangular). -/
def Table.WF (t : Table) : Prop := ∀ r ∈ t.rows, r.length = t.header.length

instance (t : Table) : Decidable t.WF := by
  unfold Table.WF
  infer_instance

/-- Index of the first occurrence of a column name in a header
(`df.columns.get_loc`). -/
def colIdx : List String → String → Option Nat
  | [], _ => none
  | h :: hs, c => if h = c then some 0 else (colIdx hs c).map (· + 1)

/-- The cell of `row` in column `c`; `na` if the column does not exist. -/
def getCell (header : List String) (row : List Cell) (c : String) : Cell :=
  match colIdx header c with
  | some i => row.getD i Cell.na
  | none => Cell.na

/-- The column `df[c]` as a list of cells (one per row). -/
def Table.col (t : Table) (c : String) : List Cell :=
  t.rows.map (fun r => getCell t.header r c)

/-- `c in df.columns`. -/
def Table.hasCol (t : Table) (c : String) : Bool := decide (c ∈ t.header)

/-- `df[c] = vals`: overwrite the column if the name exists, otherwise
append a new column on the right. -/
def Table.setCol (t : Table) (c : String) (vals : List Cell) : Table :=
  match colIdx t.header c with
  | some i => ⟨t.header, (t.rows.zip vals).map (fun rv => rv.1.set i rv.2)⟩
  | none => ⟨t.header ++ [c], (t.rows.zip vals).map (fun rv => rv.1 ++ [rv.2])⟩

/-- `df[cs]`: keep the named columns, in the given order. -/
def selectCols (t : Table) (cs : List String) : Table :=
  ⟨cs, t.rows.map (fun r => cs.map (fun c => getCell t.header r c))⟩

/-- Align two columns by position and combine them elementwise (pandas
binary series arithmetic on a shared index). -/
def colZip (f : Cell → Cell → Cell) (xs ys : List Cell) : List Cell :=
  (xs.zip ys).map (fun p => f p.1 p.2)

lemma colIdx_eq_none_iff (h : List String) (c : String) :
    colIdx h c = none ↔ c ∉ h := by
  induction h with
  | nil => simp [colIdx]
  | cons a hs ih =>
      by_cases hac : a = c
      · simp [colIdx, hac]
      · simp [colIdx, hac, ih, Ne.symm hac]

lemma colIdx_isSome_of_mem {h : List String} {c : String} (hc : c ∈ h) :
    ∃ i, colIdx h c = some i := by
  cases hidx : colIdx h c with
  | none => exact absurd ((colIdx_eq_none_iff h c).mp hidx) (by simp [hc])
  | some i => exact ⟨i, rfl⟩

lemma mem_of_colIdx_eq_some {h : List String} {c : String} {i : Nat}
    (hidx : colIdx h c = some i) : c ∈ h := by
  by_contra hc
  rw [← colIdx_eq_none_iff h c] at hc
  simp [hc] at hidx

lemma colIdx_getElem? {h : List String} {c : String} {i : Nat}
    (hidx : colIdx h c = some i) : h[i]? = some c := by
  induction h generalizing i with
  | nil => simp [colIdx] at hidx
  | cons a hs ih =>
      by_cases hac : a = c
      · simp only [colIdx, if_pos hac] at hidx
        cases hidx
        subst hac
        exact List.getElem?_cons_zero
      · simp only [colIdx, if_neg hac] at hidx
        cases hrec : colIdx hs c with
        | none => simp [hrec] at hidx
        | some j =>
            rw [hrec] at hidx
            simp only [Option.map_some'] at hidx
            cases hidx
            rw [List.getElem?_cons_succ]
            exact ih hrec

lemma colIdx_lt_length {h : List String} {c : String} {i : Nat}
    (hidx : colIdx h c = some i) : i < h.length := by
  have := colIdx_getElem? hidx
  exact (List.getElem?_eq_some_iff.mp this).1

lemma colIdx_ne_of_ne {h : List String} {c c' : String} {i j : Nat}
    (hi : colIdx h c = some i) (hj : colIdx h c' = some j) (hcc : c ≠ c') :
    i ≠ j := by
  intro hij
  apply hcc
  have h1 := colIdx_getElem? hi
  have h2 := colIdx_getElem? hj
  rw [hij, h2] at h1
  exact (Option.some_inj.mp h1).symm

lemma colIdx_append_singleton_ne (h : List String) {c c' : String}
    (hne : c' ≠ c) : colIdx (h ++ [c]) c' = colIdx h c' := by
  induction h with
  | nil => simp [colIdx, Ne.symm hne]
  | cons a hs ih =>
      by_cases hac : a = c'
      · simp [colIdx, hac]
      · simp [colIdx, hac, ih]

lemma getCell_of_not_mem {header : List String} {c : String}
    (hc : c ∉ header) (row : List Cell) : getCell header row c = Cell.na := by
  unfold getCell
  rw [(colIdx_eq_none_iff header c).mpr hc]

lemma col_length (t : Table) (c : String) : (t.col c).length = t.rows.length := by
  simp [Table.col]

lemma hasCol_iff (t : Table) (c : String) : t.hasCol c = true ↔ c ∈ t.header := by
  simp [Table.hasCol]

lemma setCol_rows_length (t : Table) (c : String) (vals : List Cell)
    (hlen : vals.length = t.rows.length) :
    (t.setCol c vals).rows.length = t.rows.length := by
  unfold Table.setCol
  cases colIdx t.header c <;> simp [hlen]

lemma setCol_WF (t : Table) (c : String) (vals : List Cell)
    (hwf : t.WF) (_hlen : vals.length = t.rows.length) :
    (t.setCol c vals).WF := by
  unfold Table.setCol
  cases hidx : colIdx t.header c with
  | some i =>
      intro r hr
      simp only [List.mem_map] at hr
      obtain ⟨rv, hrv, hset⟩ := hr
      have hmem := List.of_mem_zip hrv
      simp only [← hset, List.length_set]
      exact hwf rv.1 hmem.1
  | none =>
      intro r hr
      simp only [List.mem_map] at hr
      obtain ⟨rv, hrv, hset⟩ := hr
      have hmem := List.of_mem_zip hrv
      simp only [← hset, List.length_append, List.length_singleton]
      simp [hwf rv.1 hmem.1]

lemma setCol_mem_header (t : Table) (c c' : String) (vals : List Cell) :
    c' ∈ (t.setCol c vals).header ↔ c' ∈ t.header ∨ c' = c := by
  unfold Table.setCol
  cases hidx : colIdx t.header c with
  | some i =>
      simp only []
      constructor
      · exact fun h => Or.inl h
      · rintro (h | rfl)
        · exact h
        · exact mem_of_colIdx_eq_some hidx
  | none => simp

lemma setCol_col_ne (t : Table) (c c' : String) (vals : List Cell)
    (hwf : t.WF) (hlen : vals.length = t.rows.length) (hne : c' ≠ c) :
    (t.setCol c vals).col c' = t.col c' := by
  have hzf : (t.rows.zip vals).map Prod.fst = t.rows :=
    List.map_fst_zip t.rows vals (le_of_eq hlen.symm)
  unfold Table.setCol Table.col
  cases hidx : colIdx t.header c with
  | some i =>
      simp only [List.map_map]
      have hpt : ∀ rv ∈ t.rows.zip vals,
          getCell t.header (rv.1.set i rv.2) c' = getCell t.header rv.1 c' := by
        intro rv _
        unfold getCell
        cases hidx' : colIdx t.header c' with
        | none => rfl
        | some j =>
            have hij : i ≠ j := (colIdx_ne_of_ne hidx' hidx hne).symm
            simp [List.getElem?_set_ne hij]
      calc (t.rows.zip vals).map (fun rv => getCell t.header (rv.1.set i rv.2) c')
          = (t.rows.zip vals).map (fun rv => getCell t.header rv.1 c') :=
            List.map_congr_left hpt
        _ = ((t.rows.zip vals).map Prod.fst).map (fun r => getCell t.header r c') := by
            rw [List.map_map]; rfl
        _ = t.rows.map (fun r => getCell t.header r c') := by rw [hzf]
  | none =>
      have hcnot : c ∉ t.header := (colIdx_eq_none_iff t.header c).mp hidx
      simp only [List.map_map]
      have hpt : ∀ rv ∈ t.rows.zip vals,
          getCell (t.header ++ [c]) (rv.1 ++ [rv.2]) c' = getCell t.header rv.1 c' := by
        intro rv hrv
        have hr1 : rv.1 ∈ t.rows := (List.of_mem_zip hrv).1
        unfold getCell
        rw [colIdx_append_singleton_ne t.header hne]
        cases hidx' : colIdx t.header c' with
        | none => rfl
        | some j =>
            have hj : j < t.header.length := colIdx_lt_length hidx'
            have hjr : j < rv.1.length := by rw [hwf rv.1 hr1]; exact hj
            simp [List.getElem?_append_left hjr]
      calc (t.rows.zip vals).map (fun rv => getCell (t.header ++ [c]) (rv.1 ++ [rv.2]) c')
          = (t.rows.zip vals).map (fun rv => getCell t.header rv.1 c') :=
            List.map_congr_left hpt
        _ = ((t.rows.zip vals).map Prod.fst).map (fun r => getCell t.header r c') := by
            rw [List.map_map]; rfl
        _ = t.rows.map (fun r => getCell t.header r c') := by rw [hzf]

lemma getCell_eq_of_colIdx {header : List String} {c : String} {i : Nat}
    (h : colIdx header c = some i) (row : List Cell) :
    getCell header row c = row.getD i Cell.na := by
  unfold getCell
  rw [h]

lemma selectCols_col (t : Table) (cs : List String) (c : String) (hc : c ∈ cs) :
    (selectCols t cs).col c = t.col c := by
  unfold selectCols Table.col
  simp only [List.map_map]
  apply List.map_congr_left
  intro r _
  obtain ⟨i, hi⟩ := colIdx_isSome_of_mem hc
  have hget : cs[i]? = some c := colIdx_getElem? hi
  simp only [Function.comp]
  rw [getCell_eq_of_colIdx hi]
  rw [List.getD_eq_getElem?_getD, List.getElem?_map, hget]
  rfl

/-- `Series.notnull().sum()`: the number of non-missing cells. -/
def notnullCount (cells : List Cell) : Nat :=
  (cells.filter (fun c => decide (c ≠ Cell.na))).length

/-- `Series.isna().sum()`: the number of missing cells. -/
def isnaCount (cells : List Cell) : Nat :=
  (cells.filter (fun c => decide (c = Cell.na))).length

/-- `Series.nunique()`: the number of distinct non-missing values. -/
def nunique (cells : List Cell) : Nat :=
  ((cells.filter (fun c => decide (c ≠ Cell.na))).dedup).length

/-- The target column name (`target = "pH_H2O"`). -/
def target : String := "pH_H2O"

/-- The candidate categorical columns
(`categorical_cols = ["Depth", ...]`). -/
def categorical_cols : List String :=
  ["Depth", "LC", "LU", "USDA", "ISSS", "NUTS_0", "LC0_Desc", "LC1_Desc", "LU1_Desc"]

/-- The per-column filter condition of the categorical loop:
`df[col].nunique() < 30 and df[col].isna().sum() / len(df) < 0.3`.
The missing-rate comparison is stated over the integers:
for a nonempty frame `isna/len < 0.3` is exactly `10*isna < 3*len`
(proved as `c1_categorical_filter`), and for an empty frame both the
source (where `0/0` is NaN, and `NaN < 0.3` is false) and this integer
form reject the column. -/
def catFilterOK (t : Table) (c : String) : Bool :=
  decide (nunique (t.col c) < 30) &&
    decide (10 * isnaCount (t.col c) < 3 * t.rows.length)

/-- `filtered_cat_cols`: candidate categorical columns restricted to those
present in the frame (line 44) and passing the cardinality / missing-rate
filter (lines 47-51 of the notebook). -/
def filtered_cat_cols (t : Table) : List String :=
  (categorical_cols.filter (fun c => t.hasCol c)).filter
    (fun c => t.hasCol c && catFilterOK t c)

/-- `df = df.dropna(subset=[target])`: keep the rows whose target cell is
present. -/
def dropnaTarget (t : Table) : Table :=
  ⟨t.header, t.rows.filter (fun r => decide (getCell t.header r target ≠ Cell.na))⟩

/-- `df["EC"] / df["OC"].replace(0, 0.001)`. -/
def ecOcVals (t : Table) : List Cell :=
  colZip Cell.div (t.col ("EC")) ((t.col ("OC")).map Cell.replace0)

/-- `df["Clay"] / df["Sand"].replace(0, 0.001)`. -/
def claySandVals (t : Table) : List Cell :=
  colZip Cell.div (t.col ("Clay")) ((t.col ("Sand")).map Cell.replace0)

/-- `df["N"] + df["P"] + df["K"]`. -/
def npkVals (t : Table) : List Cell :=
  colZip Cell.add (colZip Cell.add (t.col ("N")) (t.col ("P"))) (t.col ("K"))

/-- `np.log1p(df["CaCO3"])`; the transcendental `log1p` itself lives in the
external numeric runtime and is passed in as `f`. -/
def logCaCO3Vals (f : Rat → Rat) (t : Table) : List Cell :=
  (t.col ("CaCO3")).map (Cell.map1 f)

/-- `df["OC"] / df["N"].replace(0, 0.001)`. -/
def cnVals (t : Table) : List Cell :=
  colZip Cell.div (t.col ("OC")) ((t.col ("N")).map Cell.replace0)

/-- `df["Clay"] * df["OC"]`. -/
def clayOcVals (t : Table) : List Cell :=
  colZip Cell.mul (t.col ("Clay")) (t.col ("OC"))

/-- One guarded feature-engineering statement
`if cond: df[n] = vals(df)`. -/
def addIfCol (cond : Table → Bool) (n : String) (vals : Table → List Cell)
    (t : Table) : Table :=
  if cond t then t.setCol n (vals t) else t

/-- `if "EC" in df.columns and "OC" in df.columns:
df["EC_OC_ratio"] = df["EC"] / df["OC"].replace(0, 0.001)`. -/
def addEcOc : Table → Table :=
  addIfCol (fun t => t.hasCol ("EC") && t.hasCol ("OC")) ("EC_OC_ratio") ecOcVals

/-- `if "Clay" in df.columns and "Sand" in df.columns:
df["Clay_Sand_ratio"] = df["Clay"] / df["Sand"].replace(0, 0.001)`. -/
def addClaySand : Table → Table :=
  addIfCol (fun t => t.hasCol ("Clay") && t.hasCol ("Sand")) ("Clay_Sand_ratio") claySandVals

/-- `if "N" in df.columns and "P" in df.columns and "K" in df.columns:` and
the nested `if df["N"].notnull().sum() > 0 and ...: df["NPK_sum"] = ...`;
the two nested guards collapse to one conjunction around the single
assignment. -/
def addNpk : Table → Table :=
  addIfCol
    (fun t => (t.hasCol ("N") && t.hasCol ("P") && t.hasCol ("K")) &&
      (decide (0 < notnullCount (t.col ("N"))) &&
       decide (0 < notnullCount (t.col ("P"))) &&
       decide (0 < notnullCount (t.col ("K")))))
    ("NPK_sum") npkVals

/-- `if "CaCO3" in df.columns: df["log_CaCO3"] = np.log1p(df["CaCO3"])`. -/
def addLogCaCO3 (f : Rat → Rat) : Table → Table :=
  addIfCol (fun t => t.hasCol ("CaCO3")) ("log_CaCO3") (logCaCO3Vals f)

/-- `if "OC" in df.columns and "N" in df.columns:
df["CN_ratio"] = df["OC"] / df["N"].replace(0, 0.001)`. -/
def addCn : Table → Table :=
  addIfCol (fun t => t.hasCol ("OC") && t.hasCol ("N")) ("CN_ratio") cnVals

/-- `if "Clay" in df.columns and "OC" in df.columns:
df["Clay_OC_interaction"] = df["Clay"] * df["OC"]`. -/
def addClayOc : Table → Table :=
  addIfCol (fun t => t.hasCol ("Clay") && t.hasCol ("OC")) ("Clay_OC_interaction") clayOcVals

/-- The whole feature-engineering block (notebook lines 58-80), in source
order. -/
def featureEngineer (f : Rat → Rat) (t : Table) : Table :=
  addClayOc (addCn (addLogCaCO3 f (addNpk (addClaySand (addEcOc t)))))

/-- The names of the six engineered feature columns. -/
def engineeredNames : List String :=
  ["EC_OC_ratio", "Clay_Sand_ratio", "NPK_sum", "log_CaCO3", "CN_ratio",
   "Clay_OC_interaction"]

/-- `select_dtypes(include=[np.number]).columns`: the columns that contain
no string cell. -/
def numericColsOf (t : Table) : List String :=
  t.header.filter (fun c => (t.col c).all (fun x => !x.isStr))

/-- The feature pipeline of the notebook: compute `filtered_cat_cols` on
the loaded frame, drop target-missing rows, engineer features, then
extract `y = df[target].values`, recompute
`numeric_cols = [c for c in numeric dtypes if c != target]` and take
`X = df[numeric_cols + filtered_cat_cols]`. -/
def buildXy (f : Rat → Rat) (t0 : Table) : Table × List Cell :=
  let fcc := filtered_cat_cols t0
  let df1 := dropnaTarget t0
  let df2 := featureEngineer f df1
  let y := df2.col target
  let ncols := (numericColsOf df2).filter (fun c => decide (c ≠ target))
  (selectCols df2 (ncols ++ fcc), y)

lemma colZip_length (f : Cell → Cell → Cell) (xs ys : List Cell) :
    (colZip f xs ys).length = min xs.length ys.length := by
  simp [colZip]

lemma ecOcVals_length (t : Table) : (ecOcVals t).length = t.rows.length := by
  simp [ecOcVals, colZip, col_length]

lemma claySandVals_length (t : Table) : (claySandVals t).length = t.rows.length := by
  simp [claySandVals, colZip, col_length]

lemma npkVals_length (t : Table) : (npkVals t).length = t.rows.length := by
  simp [npkVals, colZip, col_length]

lemma logCaCO3Vals_length (f : Rat → Rat) (t : Table) :
    (logCaCO3Vals f t).length = t.rows.length := by
  simp [logCaCO3Vals, col_length]

lemma cnVals_length (t : Table) : (cnVals t).length = t.rows.length := by
  simp [cnVals, colZip, col_length]

lemma clayOcVals_length (t : Table) : (clayOcVals t).length = t.rows.length := by
  simp [clayOcVals, colZip, col_length]

lemma addIfCol_rows_length (cond : Table → Bool) (n : String)
    (vals : Table → List Cell) (t : Table) (hv : (vals t).length = t.rows.length) :
    (addIfCol cond n vals t).rows.length = t.rows.length := by
  unfold addIfCol
  split
  · exact setCol_rows_length t n (vals t) hv
  · rfl

lemma addIfCol_WF (cond : Table → Bool) (n : String) (vals : Table → List Cell)
    (t : Table) (hwf : t.WF) (hv : (vals t).length = t.rows.length) :
    (addIfCol cond n vals t).WF := by
  unfold addIfCol
  split
  · exact setCol_WF t n (vals t) hwf hv
  · exact hwf

lemma addIfCol_col_ne (cond : Table → Bool) (n : String) (vals : Table → List Cell)
    (t : Table) (c : String) (hwf : t.WF) (hv : (vals t).length = t.rows.length)
    (hne : c ≠ n) : (addIfCol cond n vals t).col c = t.col c := by
  unfold addIfCol
  split
  · exact setCol_col_ne t n c (vals t) hwf hv hne
  · rfl

lemma addIfCol_mem_header (cond : Table → Bool) (n : String)
    (vals : Table → List Cell) (t : Table) (c : String) :
    c ∈ (addIfCol cond n vals t).header ↔
      c ∈ t.header ∨ (cond t = true ∧ c = n) := by
  unfold addIfCol
  split
  · rename_i hcond
    rw [setCol_mem_header]
    simp [hcond]
  · rename_i hcond
    simp [hcond]

lemma addIfCol_hasCol_ne (cond : Table → Bool) (n : String)
    (vals : Table → List Cell) (t : Table) (c : String) (hne : c ≠ n) :
    (addIfCol cond n vals t).hasCol c = t.hasCol c := by
  unfold Table.hasCol
  rw [decide_eq_decide, addIfCol_mem_header]
  simp [hne]

lemma addEcOc_WF {t : Table} (hwf : t.WF) : (addEcOc t).WF := by
  unfold addEcOc
  exact addIfCol_WF _ _ _ _ hwf (ecOcVals_length t)

lemma addClaySand_WF {t : Table} (hwf : t.WF) : (addClaySand t).WF := by
  unfold addClaySand
  exact addIfCol_WF _ _ _ _ hwf (claySandVals_length t)

lemma addNpk_WF {t : Table} (hwf : t.WF) : (addNpk t).WF := by
  unfold addNpk
  exact addIfCol_WF _ _ _ _ hwf (npkVals_length t)

lemma addLogCaCO3_WF (f : Rat → Rat) {t : Table} (hwf : t.WF) :
    (addLogCaCO3 f t).WF := by
  unfold addLogCaCO3
  exact addIfCol_WF _ _ _ _ hwf (logCaCO3Vals_length f t)

lemma addCn_WF {t : Table} (hwf : t.WF) : (addCn t).WF := by
  unfold addCn
  exact addIfCol_WF _ _ _ _ hwf (cnVals_length t)

lemma addClayOc_WF {t : Table} (hwf : t.WF) : (addClayOc t).WF := by
  unfold addClayOc
  exact addIfCol_WF _ _ _ _ hwf (clayOcVals_length t)

lemma addEcOc_col (t : Table) (c : String) (hwf : t.WF)
    (hne : c ≠ "EC_OC_ratio") : (addEcOc t).col c = t.col c := by
  unfold addEcOc
  exact addIfCol_col_ne _ _ _ _ _ hwf (ecOcVals_length t) hne

lemma addClaySand_col (t : Table) (c : String) (hwf : t.WF)
    (hne : c ≠ "Clay_Sand_ratio") : (addClaySand t).col c = t.col c := by
  unfold addClaySand
  exact addIfCol_col_ne _ _ _ _ _ hwf (claySandVals_length t) hne

lemma addNpk_col (t : Table) (c : String) (hwf : t.WF)
    (hne : c ≠ "NPK_sum") : (addNpk t).col c = t.col c := by
  unfold addNpk
  exact addIfCol_col_ne _ _ _ _ _ hwf (npkVals_length t) hne

lemma addLogCaCO3_col (f : Rat → Rat) (t : Table) (c : String) (hwf : t.WF)
    (hne : c ≠ "log_CaCO3") : (addLogCaCO3 f t).col c = t.col c := by
  unfold addLogCaCO3
  exact addIfCol_col_ne _ _ _ _ _ hwf (logCaCO3Vals_length f t) hne

lemma addCn_col (t : Table) (c : String) (hwf : t.WF)
    (hne : c ≠ "CN_ratio") : (addCn t).col c = t.col c := by
  unfold addCn
  exact addIfCol_col_ne _ _ _ _ _ hwf (cnVals_length t) hne

lemma addClayOc_col (t : Table) (c : String) (hwf : t.WF)
    (hne : c ≠ "Clay_OC_interaction") : (addClayOc t).col c = t.col c := by
  unfold addClayOc
  exact addIfCol_col_ne _ _ _ _ _ hwf (clayOcVals_length t) hne

lemma featureEngineer_WF (f : Rat → Rat) {t : Table} (hwf : t.WF) :
    (featureEngineer f t).WF := by
  unfold featureEngineer
  exact addClayOc_WF (addCn_WF (addLogCaCO3_WF f (addNpk_WF (addClaySand_WF
    (addEcOc_WF hwf)))))

lemma featureEngineer_rows_length (f : Rat → Rat) (t : Table) :
    (featureEngineer f t).rows.length = t.rows.length := by
  unfold featureEngineer addClayOc addCn addLogCaCO3 addNpk addClaySand addEcOc
  rw [addIfCol_rows_length _ _ _ _ (clayOcVals_length _),
    addIfCol_rows_length _ _ _ _ (cnVals_length _),
    addIfCol_rows_length _ _ _ _ (logCaCO3Vals_length f _),
    addIfCol_rows_length _ _ _ _ (npkVals_length _),
    addIfCol_rows_length _ _ _ _ (claySandVals_length _),
    addIfCol_rows_length _ _ _ _ (ecOcVals_length _)]

lemma featureEngineer_col_stable (f : Rat → Rat) (t : Table) (hwf : t.WF)
    (c : String) (hc : c ∉ engineeredNames) :
    (featureEngineer f t).col c = t.col c := by
  simp only [engineeredNames, List.mem_cons, List.not_mem_nil, or_false,
    not_or] at hc
  obtain ⟨h1, h2, h3, h4, h5, h6⟩ := hc
  have w1 : (addEcOc t).WF := addEcOc_WF hwf
  have w2 : (addClaySand (addEcOc t)).WF := addClaySand_WF w1
  have w3 : (addNpk (addClaySand (addEcOc t))).WF := addNpk_WF w2
  have w4 : (addLogCaCO3 f (addNpk (addClaySand (addEcOc t)))).WF :=
    addLogCaCO3_WF f w3
  have w5 : (addCn (addLogCaCO3 f (addNpk (addClaySand (addEcOc t))))).WF :=
    addCn_WF w4
  unfold featureEngineer
  rw [addClayOc_col _ _ w5 h6, addCn_col _ _ w4 h5, addLogCaCO3_col f _ _ w3 h4,
    addNpk_col _ _ w2 h3, addClaySand_col _ _ w1 h2, addEcOc_col _ _ hwf h1]

/-- A one-column frame whose candidate column has exactly 30 distinct
values and no missing value. -/
def tbl30 : Table :=
  ⟨["Depth"], (List.range 30).map (fun i => [Cell.num (i : Rat)])⟩

/-- A 30-row frame whose candidate column has 29 distinct values and no
missing value. -/
def tbl29 : Table :=
  ⟨["Depth"], (List.range 29).map (fun i => [Cell.num (i : Rat)]) ++ [[Cell.num 0]]⟩

/-- C1: a candidate categorical column is kept in `filtered_cat_cols` iff
it occurs in the frame, its distinct-value count is strictly below 30, and
its missing-rate is strictly below 0.3; at the boundary, a column with
exactly 30 distinct values is excluded while one with 29 distinct values
and missing-rate 0 is included. -/
theorem c1_categorical_filter :
    (∀ (t : Table) (c : String), 0 < t.rows.length →
      (c ∈ filtered_cat_cols t ↔
        c ∈ categorical_cols ∧ c ∈ t.header ∧ nunique (t.col c) < 30 ∧
          (isnaCount (t.col c) : Rat) / (t.rows.length : Rat) < 3/10))
  ∧ nunique (tbl30.col ("Depth")) = 30 ∧ "Depth" ∉ filtered_cat_cols tbl30
  ∧ nunique (tbl29.col ("Depth")) = 29 ∧ "Depth" ∈ filtered_cat_cols tbl29
  ∧ isnaCount (tbl29.col ("Depth")) = 0 := by
  refine ⟨?_, by decide, by decide, by decide, by decide, by decide⟩
  intro t c hpos
  have hrate : ((isnaCount (t.col c) : Rat) / (t.rows.length : Rat) < 3/10)
      ↔ 10 * isnaCount (t.col c) < 3 * t.rows.length := by
    rw [div_lt_div_iff₀ (by exact_mod_cast hpos) (by norm_num)]
    constructor
    · intro h
      have h' : isnaCount (t.col c) * 10 < 3 * t.rows.length := by exact_mod_cast h
      omega
    · intro h
      have h' : isnaCount (t.col c) * 10 < 3 * t.rows.length := by omega
      exact_mod_cast h'
  simp only [filtered_cat_cols, List.mem_filter, Table.hasCol, catFilterOK,
    Bool.and_eq_true, decide_eq_true_eq]
  rw [hrate]
  tauto

/-- Witness for `c1_categorical_filter` at the concrete 30-row frame. -/
theorem c1_categorical_filter_witness :
    0 < tbl29.rows.length ∧
      ("Depth" ∈ filtered_cat_cols tbl29 ↔
        "Depth" ∈ categorical_cols ∧ "Depth" ∈ tbl29.header ∧
          nunique (tbl29.col ("Depth")) < 30 ∧
          (isnaCount (tbl29.col ("Depth")) : Rat) / (tbl29.rows.length : Rat) < 3/10) :=
  ⟨by decide, c1_categorical_filter.1 tbl29 ("Depth") (by decide)⟩

lemma dropnaTarget_WF {t : Table} (hwf : t.WF) : (dropnaTarget t).WF := by
  intro r hr
  exact hwf r (List.mem_of_mem_filter hr)

/-- C2: a row whose `pH_H2O` target cell is missing appears in neither the
target vector `y` nor the feature matrix `X`: `y` is exactly the list of
target cells of the target-present input rows (filtered before `y` and `X`
are extracted and before the train/test split is taken from them), so `y`
contains no missing value, and `X` has exactly one row per target-present
input row. -/
theorem c2_target_missing_rows_excluded (f : Rat → Rat) (t0 : Table) (hwf : t0.WF) :
    (buildXy f t0).2
      = (t0.rows.filter (fun r => decide (getCell t0.header r target ≠ Cell.na))).map
          (fun r => getCell t0.header r target)
  ∧ (∀ v ∈ (buildXy f t0).2, v ≠ Cell.na)
  ∧ (buildXy f t0).1.rows.length
      = (t0.rows.filter
          (fun r => decide (getCell t0.header r target ≠ Cell.na))).length := by
  have hwf1 : (dropnaTarget t0).WF := dropnaTarget_WF hwf
  have hy : (buildXy f t0).2
      = (t0.rows.filter (fun r => decide (getCell t0.header r target ≠ Cell.na))).map
          (fun r => getCell t0.header r target) := by
    show (featureEngineer f (dropnaTarget t0)).col target = _
    rw [featureEngineer_col_stable f _ hwf1 target (by decide)]
    rfl
  refine ⟨hy, ?_, ?_⟩
  · rw [hy]
    intro v hv
    simp only [List.mem_map] at hv
    obtain ⟨r, hr, rfl⟩ := hv
    have := List.of_mem_filter hr
    simpa using this
  · show (selectCols (featureEngineer f (dropnaTarget t0)) _).rows.length = _
    simp only [selectCols, List.length_map]
    rw [featureEngineer_rows_length]
    rfl

/-- A two-row frame: one row with the target present, one with it missing. -/
def tblC2 : Table := ⟨["pH_H2O"], [[Cell.num 7], [Cell.na]]⟩

/-- Witness for `c2_target_missing_rows_excluded` on a concrete frame. -/
theorem c2_target_missing_rows_excluded_witness :
    tblC2.WF ∧ (∀ v ∈ (buildXy id tblC2).2, v ≠ Cell.na) :=
  ⟨by decide, (c2_target_missing_rows_excluded id tblC2 (by decide)).2.1⟩

/-- C10: computing the engineered ratios does not mutate the denominator
source columns: `replace(0, 0.001)` produces a fresh series that is only
divided by, never written back, so after feature engineering `OC`, `Sand`
and `N` hold their original cell values (zeros included); and whenever
`OC` is among the feature-matrix columns, the `OC` column of `X` equals
the `OC` column of the target-filtered frame. -/
theorem c10_ratio_sources_unchanged (f : Rat → Rat) (t : Table) (hwf : t.WF) :
    (featureEngineer f t).col ("OC") = t.col ("OC")
  ∧ (featureEngineer f t).col ("Sand") = t.col ("Sand")
  ∧ (featureEngineer f t).col ("N") = t.col ("N")
  ∧ ("OC" ∉ (buildXy f t).1.header ∨
      (buildXy f t).1.col ("OC") = (dropnaTarget t).col ("OC")) := by
  have hwf1 : (dropnaTarget t).WF := dropnaTarget_WF hwf
  refine ⟨featureEngineer_col_stable f t hwf _ (by decide),
    featureEngineer_col_stable f t hwf _ (by decide),
    featureEngineer_col_stable f t hwf _ (by decide), ?_⟩
  by_cases hmem : "OC" ∈
      ((numericColsOf (featureEngineer f (dropnaTarget t))).filter
        (fun c => decide (c ≠ target)) ++ filtered_cat_cols t)
  · right
    show (selectCols (featureEngineer f (dropnaTarget t)) _).col ("OC") = _
    rw [selectCols_col _ _ _ hmem]
    exact featureEngineer_col_stable f _ hwf1 _ (by decide)
  · left
    exact hmem

/-- A one-row frame whose `OC` value is zero. -/
def tblC10 : Table := ⟨["OC", "pH_H2O"], [[Cell.num 0, Cell.num 7]]⟩

/-- Witness for `c10_ratio_sources_unchanged` on a concrete frame with a
zero `OC` cell. -/
theorem c10_ratio_sources_unchanged_witness :
    tblC10.WF ∧ (featureEngineer id tblC10).col ("OC") = tblC10.col ("OC") :=
  ⟨by decide, (c10_ratio_sources_unchanged id tblC10 (by decide)).1⟩

/-- A frame whose candidate column `Depth` has 30 distinct values overall,
one of which occurs only in the single row whose target is missing. -/
def tblC9 : Table :=
  ⟨["Depth", "pH_H2O"],
    (List.range 29).map (fun i => [Cell.num (i : Rat), Cell.num 1])
      ++ [[Cell.num 29, Cell.na]]⟩

/-- C9: the categorical-filter statistics are computed on the full loaded
frame, before target-missing rows are dropped — the categorical block of
the feature matrix is `filtered_cat_cols` of the input frame — and on a
concrete frame the included set differs from what the filter would give
after the drop (30 distinct values before, 29 after). -/
theorem c9_filter_runs_before_drop :
    (∀ (f : Rat → Rat) (t0 : Table),
      (buildXy f t0).1.header
        = (numericColsOf (featureEngineer f (dropnaTarget t0))).filter
            (fun c => decide (c ≠ target)) ++ filtered_cat_cols t0)
  ∧ filtered_cat_cols tblC9 ≠ filtered_cat_cols (dropnaTarget tblC9) :=
  ⟨fun _ _ => rfl, by decide⟩

lemma colZip_div_replace0 {xs ys : List Cell} {i : Nat} {a b : Rat}
    (hx : xs[i]? = some (Cell.num a)) (hy : ys[i]? = some (Cell.num b)) :
    (colZip Cell.div xs (ys.map Cell.replace0))[i]?
      = some (Cell.div (Cell.num a) (Cell.replace0 (Cell.num b))) := by
  unfold colZip
  rw [List.getElem?_map]
  have hzip : (xs.zip (ys.map Cell.replace0))[i]?
      = some (Cell.num a, Cell.replace0 (Cell.num b)) := by
    rw [List.getElem?_zip_eq_some]
    refine ⟨hx, ?_⟩
    rw [List.getElem?_map, hy]
    rfl
  rw [hzip]
  rfl

lemma replace0_ne_zero (b : Rat) :
    ∃ d, Cell.replace0 (Cell.num b) = Cell.num d ∧ d ≠ 0 := by
  by_cases hb : b = 0
  · exact ⟨1/1000, by simp [Cell.replace0, hb], by norm_num⟩
  · exact ⟨b, by simp [Cell.replace0, hb], hb⟩

/-- C3: in each engineered ratio the denominator series has its zeros
replaced by 0.001 before the division, so whenever the numerator and
denominator cells are both numeric the ratio cell is a finite numeral
(never NaN/inf), and a zero denominator specifically yields
numerator / 0.001 = numerator * 1000. -/
theorem c3_zero_denominator_guard (t : Table) (i : Nat) :
    (∀ a b, (t.col ("EC"))[i]? = some (Cell.num a) →
      (t.col ("OC"))[i]? = some (Cell.num b) →
      ∃ q, (ecOcVals t)[i]? = some (Cell.num q))
  ∧ (∀ a, (t.col ("EC"))[i]? = some (Cell.num a) →
      (t.col ("OC"))[i]? = some (Cell.num 0) →
      (ecOcVals t)[i]? = some (Cell.num (a * 1000)))
  ∧ (∀ a b, (t.col ("Clay"))[i]? = some (Cell.num a) →
      (t.col ("Sand"))[i]? = some (Cell.num b) →
      ∃ q, (claySandVals t)[i]? = some (Cell.num q))
  ∧ (∀ a, (t.col ("Clay"))[i]? = some (Cell.num a) →
      (t.col ("Sand"))[i]? = some (Cell.num 0) →
      (claySandVals t)[i]? = some (Cell.num (a * 1000)))
  ∧ (∀ a b, (t.col ("OC"))[i]? = some (Cell.num a) →
      (t.col ("N"))[i]? = some (Cell.num b) →
      ∃ q, (cnVals t)[i]? = some (Cell.num q))
  ∧ (∀ a, (t.col ("OC"))[i]? = some (Cell.num a) →
      (t.col ("N"))[i]? = some (Cell.num 0) →
      (cnVals t)[i]? = some (Cell.num (a * 1000))) := by
  have hfin : ∀ (xs ys : List Cell) (a b : Rat),
      xs[i]? = some (Cell.num a) → ys[i]? = some (Cell.num b) →
      ∃ q, (colZip Cell.div xs (ys.map Cell.replace0))[i]? = some (Cell.num q) := by
    intro xs ys a b hx hy
    rw [colZip_div_replace0 hx hy]
    obtain ⟨d, hd, hd0⟩ := replace0_ne_zero b
    rw [hd]
    exact ⟨a / d, by simp [Cell.div, hd0]⟩
  have hzero : ∀ (xs ys : List Cell) (a : Rat),
      xs[i]? = some (Cell.num a) → ys[i]? = some (Cell.num 0) →
      (colZip Cell.div xs (ys.map Cell.replace0))[i]? = some (Cell.num (a * 1000)) := by
    intro xs ys a hx hy
    rw [colZip_div_replace0 hx hy]
    have h1 : Cell.replace0 (Cell.num 0) = Cell.num (1/1000) := by
      simp [Cell.replace0]
    rw [h1]
    have h2 : a / ((1 : Rat)/1000) = a * 1000 := by
      rw [div_div_eq_mul_div, div_one]
    simp [Cell.div, h2]
  exact ⟨fun a b => hfin _ _ a b, fun a => hzero _ _ a,
    fun a b => hfin _ _ a b, fun a => hzero _ _ a,
    fun a b => hfin _ _ a b, fun a => hzero _ _ a⟩

/-- A one-row frame with zero denominators for all three ratio features. -/
def tblC3 : Table :=
  ⟨["EC", "OC", "Clay", "Sand", "N"],
    [[Cell.num 2, Cell.num 0, Cell.num 3, Cell.num 0, Cell.num 0]]⟩

/-- Witness for `c3_zero_denominator_guard` on a row whose `OC`, `Sand`
and `N` cells are all zero. -/
theorem c3_zero_denominator_guard_witness :
    (ecOcVals tblC3)[0]? = some (Cell.num (2 * 1000))
  ∧ (claySandVals tblC3)[0]? = some (Cell.num (3 * 1000))
  ∧ (cnVals tblC3)[0]? = some (Cell.num (0 * 1000)) :=
  ⟨(c3_zero_denominator_guard tblC3 0).2.1 2 (by decide) (by decide),
   (c3_zero_denominator_guard tblC3 0).2.2.2.1 3 (by decide) (by decide),
   (c3_zero_denominator_guard tblC3 0).2.2.2.2.2 0 (by decide) (by decide)⟩

lemma addEcOc_mem (t : Table) (c : String) :
    c ∈ (addEcOc t).header ↔
      c ∈ t.header ∨
        ((t.hasCol ("EC") && t.hasCol ("OC")) = true ∧ c = "EC_OC_ratio") := by
  unfold addEcOc
  exact addIfCol_mem_header _ _ _ _ _

lemma addClaySand_mem (t : Table) (c : String) :
    c ∈ (addClaySand t).header ↔
      c ∈ t.header ∨
        ((t.hasCol ("Clay") && t.hasCol ("Sand")) = true ∧ c = "Clay_Sand_ratio") := by
  unfold addClaySand
  exact addIfCol_mem_header _ _ _ _ _

lemma addNpk_mem (t : Table) (c : String) :
    c ∈ (addNpk t).header ↔
      c ∈ t.header ∨
        (((t.hasCol ("N") && t.hasCol ("P") && t.hasCol ("K")) &&
          (decide (0 < notnullCount (t.col ("N"))) &&
           decide (0 < notnullCount (t.col ("P"))) &&
           decide (0 < notnullCount (t.col ("K"))))) = true ∧ c = "NPK_sum") := by
  unfold addNpk
  exact addIfCol_mem_header _ _ _ _ _

lemma addLogCaCO3_mem (f : Rat → Rat) (t : Table) (c : String) :
    c ∈ (addLogCaCO3 f t).header ↔
      c ∈ t.header ∨ (t.hasCol ("CaCO3") = true ∧ c = "log_CaCO3") := by
  unfold addLogCaCO3
  exact addIfCol_mem_header _ _ _ _ _

lemma addCn_mem (t : Table) (c : String) :
    c ∈ (addCn t).header ↔
      c ∈ t.header ∨
        ((t.hasCol ("OC") && t.hasCol ("N")) = true ∧ c = "CN_ratio") := by
  unfold addCn
  exact addIfCol_mem_header _ _ _ _ _

lemma addClayOc_mem (t : Table) (c : String) :
    c ∈ (addClayOc t).header ↔
      c ∈ t.header ∨
        ((t.hasCol ("Clay") && t.hasCol ("OC")) = true ∧ c = "Clay_OC_interaction") := by
  unfold addClayOc
  exact addIfCol_mem_header _ _ _ _ _

lemma addEcOc_hasCol (t : Table) (c : String) (hne : c ≠ "EC_OC_ratio") :
    (addEcOc t).hasCol c = t.hasCol c := by
  unfold addEcOc
  exact addIfCol_hasCol_ne _ _ _ _ _ hne

lemma addClaySand_hasCol (t : Table) (c : String) (hne : c ≠ "Clay_Sand_ratio") :
    (addClaySand t).hasCol c = t.hasCol c := by
  unfold addClaySand
  exact addIfCol_hasCol_ne _ _ _ _ _ hne

lemma addNpk_hasCol (t : Table) (c : String) (hne : c ≠ "NPK_sum") :
    (addNpk t).hasCol c = t.hasCol c := by
  unfold addNpk
  exact addIfCol_hasCol_ne _ _ _ _ _ hne

lemma addLogCaCO3_hasCol (f : Rat → Rat) (t : Table) (c : String)
    (hne : c ≠ "log_CaCO3") : (addLogCaCO3 f t).hasCol c = t.hasCol c := by
  unfold addLogCaCO3
  exact addIfCol_hasCol_ne _ _ _ _ _ hne

lemma addCn_hasCol (t : Table) (c : String) (hne : c ≠ "CN_ratio") :
    (addCn t).hasCol c = t.hasCol c := by
  unfold addCn
  exact addIfCol_hasCol_ne _ _ _ _ _ hne

lemma addClayOc_hasCol (t : Table) (c : String) (hne : c ≠ "Clay_OC_interaction") :
    (addClayOc t).hasCol c = t.hasCol c := by
  unfold addClayOc
  exact addIfCol_hasCol_ne _ _ _ _ _ hne

/-- C4: each of the six engineered feature columns is added iff all of its
named source columns are present in the frame (for `NPK_sum`, additionally
each of `N`, `P`, `K` must have at least one non-missing value); a missing
source column just skips that single feature — the builder is a total
function, nothing is raised — and every other feature's guard depends only
on its own source columns of the input frame. -/
theorem c4_engineered_feature_guards (f : Rat → Rat) (t : Table) (hwf : t.WF)
    (hfresh : ∀ n ∈ engineeredNames, n ∉ t.header) :
    ("EC_OC_ratio" ∈ (featureEngineer f t).header ↔
      "EC" ∈ t.header ∧ "OC" ∈ t.header)
  ∧ ("Clay_Sand_ratio" ∈ (featureEngineer f t).header ↔
      "Clay" ∈ t.header ∧ "Sand" ∈ t.header)
  ∧ ("NPK_sum" ∈ (featureEngineer f t).header ↔
      ("N" ∈ t.header ∧ "P" ∈ t.header ∧ "K" ∈ t.header) ∧
        0 < notnullCount (t.col ("N")) ∧ 0 < notnullCount (t.col ("P")) ∧
        0 < notnullCount (t.col ("K")))
  ∧ ("log_CaCO3" ∈ (featureEngineer f t).header ↔ "CaCO3" ∈ t.header)
  ∧ ("CN_ratio" ∈ (featureEngineer f t).header ↔
      "OC" ∈ t.header ∧ "N" ∈ t.header)
  ∧ ("Clay_OC_interaction" ∈ (featureEngineer f t).header ↔
      "Clay" ∈ t.header ∧ "OC" ∈ t.header) := by
  have hf1 : "EC_OC_ratio" ∉ t.header := hfresh _ (by decide)
  have hf2 : "Clay_Sand_ratio" ∉ t.header := hfresh _ (by decide)
  have hf3 : "NPK_sum" ∉ t.header := hfresh _ (by decide)
  have hf4 : "log_CaCO3" ∉ t.header := hfresh _ (by decide)
  have hf5 : "CN_ratio" ∉ t.header := hfresh _ (by decide)
  have hf6 : "Clay_OC_interaction" ∉ t.header := hfresh _ (by decide)
  have w1 : (addEcOc t).WF := addEcOc_WF hwf
  have hN2 : (addClaySand (addEcOc t)).col ("N") = t.col ("N") := by
    rw [addClaySand_col _ _ w1 (by decide), addEcOc_col _ _ hwf (by decide)]
  have hP2 : (addClaySand (addEcOc t)).col ("P") = t.col ("P") := by
    rw [addClaySand_col _ _ w1 (by decide), addEcOc_col _ _ hwf (by decide)]
  have hK2 : (addClaySand (addEcOc t)).col ("K") = t.col ("K") := by
    rw [addClaySand_col _ _ w1 (by decide), addEcOc_col _ _ hwf (by decide)]
  unfold featureEngineer
  refine ⟨?_, ?_, ?_, ?_, ?_, ?_⟩ <;>
    simp only [addClayOc_mem, addCn_mem, addLogCaCO3_mem, addNpk_mem,
      addClaySand_mem, addEcOc_mem] <;>
    simp [addEcOc_hasCol, addClaySand_hasCol, addNpk_hasCol, addLogCaCO3_hasCol,
      addCn_hasCol, addClayOc_hasCol, addClayOc_mem, addCn_mem, addLogCaCO3_mem,
      addNpk_mem, addClaySand_mem, addEcOc_mem, hf1, hf2, hf3, hf4, hf5, hf6,
      hN2, hP2, hK2, Table.hasCol, and_assoc]

/-- A frame that has the sources for `EC_OC_ratio` but no `CaCO3`. -/
def tblC4 : Table := ⟨["EC", "OC", "pH_H2O"], [[Cell.num 1, Cell.num 2, Cell.num 7]]⟩

/-- Witness for `c4_engineered_feature_guards`: on the concrete frame the
`EC_OC_ratio` guard is satisfied and the `log_CaCO3` guard reduces to the
(absent) presence of `CaCO3`. -/
theorem c4_engineered_feature_guards_witness :
    tblC4.WF ∧ (∀ n ∈ engineeredNames, n ∉ tblC4.header)
  ∧ ("EC_OC_ratio" ∈ (featureEngineer id tblC4).header ↔
      "EC" ∈ tblC4.header ∧ "OC" ∈ tblC4.header)
  ∧ ("log_CaCO3" ∈ (featureEngineer id tblC4).header ↔ "CaCO3" ∈ tblC4.header) :=
  ⟨by decide, by decide,
   (c4_engineered_feature_guards id tblC4 (by decide) (by decide)).1,
   (c4_engineered_feature_guards id tblC4 (by decide) (by decide)).2.2.2.1⟩

/-- A keras layer as configured by the notebooks.  For `dense`,
`activation = none` is keras's linear (identity) activation, `l2reg = none`
means no kernel regularizer, and `init` is the kernel initializer
("glorot_uniform" is the keras default when none is passed). -/
inductive Layer where
  | input : Nat → Layer
  | dense : Nat → Option String → Option Rat → String → Layer
  | batchNorm : Layer
  | dropout : Rat → Layer
  | reshape : Nat → Nat → Layer
  | conv1D : Nat → Nat → String → Option String → Layer
  | globalAvgPool1D : Layer
deriving DecidableEq

/-- A compiled keras `Sequential` model: its layer stack and the
`compile(optimizer=Adam(learning_rate=...), loss="mse", metrics=["mae"])`
configuration. -/
structure CompiledModel where
  layersList : List Layer
  optimizer : String
  optimizer_lr : Rat
  loss : String
  metrics : List String
deriving DecidableEq

/-- `create_model` (hyperparameter-search notebook, lines 119-151): input
layer, then per hidden layer a Dense(neurons, activation,
kernel_regularizer=l2(l2_reg), kernel_initializer="he_normal") followed by
BatchNormalization and Dropout(dropout_rates[i]), then a single linear
Dense(1) output, compiled with Adam/mse/mae.  Python raises an IndexError
when `dropout_rates` is shorter than `neurons_layers`
(`dropout_rates[i]` out of range), modelled by returning `none`. -/
def create_model (input_dim : Nat) (neurons_layers : List Nat)
    (dropout_rates : List Rat) (activation : String) (learning_rate : Rat)
    (l2_reg : Rat) : Option CompiledModel :=
  if neurons_layers.length ≤ dropout_rates.length then
    some
      { layersList :=
          Layer.input input_dim ::
            ((neurons_layers.zip dropout_rates).flatMap (fun nd =>
              [Layer.dense nd.1 (some activation) (some l2_reg) "he_normal",
               Layer.batchNorm, Layer.dropout nd.2]))
            ++ [Layer.dense 1 none none "glorot_uniform"]
        optimizer := "Adam"
        optimizer_lr := learning_rate
        loss := "mse"
        metrics := ["mae"] }
  else none

/-- `create_cnn_model` (kanak_3 notebook): reshape the flat input to
`(input_dim, 1)`, two Conv1D+BatchNormalization stages with `cnn_filters`
and `cnn_filters * 2` filters (padding "same"), GlobalAveragePooling1D,
then the same dense blocks and single linear output as `create_model`. -/
def create_cnn_model (input_dim : Nat) (neurons_layers : List Nat)
    (dropout_rates : List Rat) (activation : String) (learning_rate : Rat)
    (l2_reg : Rat) (cnn_filters : Nat) (kernel_size : Nat) :
    Option CompiledModel :=
  if neurons_layers.length ≤ dropout_rates.length then
    some
      { layersList :=
          Layer.reshape input_dim 1 ::
            Layer.conv1D cnn_filters kernel_size "same" (some activation) ::
            Layer.batchNorm ::
            Layer.conv1D (cnn_filters * 2) kernel_size "same" (some activation) ::
            Layer.batchNorm ::
            Layer.globalAvgPool1D ::
            ((neurons_layers.zip dropout_rates).flatMap (fun nd =>
              [Layer.dense nd.1 (some activation) (some l2_reg) "he_normal",
               Layer.batchNorm, Layer.dropout nd.2]))
            ++ [Layer.dense 1 none none "glorot_uniform"]
        optimizer := "Adam"
        optimizer_lr := learning_rate
        loss := "mse"
        metrics := ["mae"] }
  else none

/-- Spec-side description of the hidden stack: one block per hidden layer,
recursively — a Dense layer of the configured width with the shared
activation, l2 penalty and variance-scaling ("he_normal") initializer,
then a normalization layer, then a Dropout at the configured rate. -/
def stackBlocks (activation : String) (l2_reg : Rat) :
    List (Nat × Rat) → List Layer
  | [] => []
  | nd :: rest =>
      Layer.dense nd.1 (some activation) (some l2_reg) "he_normal" ::
        Layer.batchNorm :: Layer.dropout nd.2 ::
        stackBlocks activation l2_reg rest

lemma flatMap_eq_stackBlocks (activation : String) (l2_reg : Rat)
    (l : List (Nat × Rat)) :
    (l.flatMap (fun nd =>
      [Layer.dense nd.1 (some activation) (some l2_reg) "he_normal",
       Layer.batchNorm, Layer.dropout nd.2]))
    = stackBlocks activation l2_reg l := by
  induction l with
  | nil => rfl
  | cons nd rest ih => simp [stackBlocks, ih]

/-- C6: for any input dimensionality and any configuration with at least
as many dropout rates as layer widths, the dense builder returns a model
that is exactly: input layer, then per hidden layer a block of
Dense(width, activation, l2(l2_reg), "he_normal") → normalization →
Dropout(rate), then a single linear Dense(1) output unit; compiled with
mse loss, mae metric and an Adam optimizer at the configured rate. -/
theorem c6_dense_builder_structure (input_dim : Nat) (neurons_layers : List Nat)
    (dropout_rates : List Rat) (activation : String) (learning_rate l2_reg : Rat)
    (h : neurons_layers.length ≤ dropout_rates.length) :
    ∃ m, create_model input_dim neurons_layers dropout_rates activation
        learning_rate l2_reg = some m
      ∧ m.layersList =
          Layer.input input_dim ::
            stackBlocks activation l2_reg (neurons_layers.zip dropout_rates)
            ++ [Layer.dense 1 none none "glorot_uniform"]
      ∧ m.loss = "mse" ∧ m.metrics = ["mae"]
      ∧ m.optimizer = "Adam" ∧ m.optimizer_lr = learning_rate := by
  refine ⟨_, by rw [create_model, if_pos h], ?_, rfl, rfl, rfl, rfl⟩
  simp [flatMap_eq_stackBlocks]

/-- Witness for `c6_dense_builder_structure` at the notebook's default
configuration. -/
theorem c6_dense_builder_structure_witness :
    [(128 : Nat), 64, 32].length ≤ [(2 : Rat)/5, 3/10, 1/5].length
  ∧ ∃ m, create_model 10 [128, 64, 32] [2/5, 3/10, 1/5] ("relu") (1/1000)
        (1/1000) = some m
      ∧ m.layersList =
          Layer.input 10 ::
            stackBlocks ("relu") (1/1000)
              ([(128 : Nat), 64, 32].zip [(2 : Rat)/5, 3/10, 1/5])
            ++ [Layer.dense 1 none none "glorot_uniform"]
      ∧ m.loss = "mse" ∧ m.metrics = ["mae"]
      ∧ m.optimizer = "Adam" ∧ m.optimizer_lr = 1/1000 :=
  ⟨by decide,
   c6_dense_builder_structure 10 [128, 64, 32] [2/5, 3/10, 1/5] ("relu")
     (1/1000) (1/1000) (by decide)⟩

/-- C7: for any input dimensionality and any configuration with at least
as many dropout rates as layer widths, the convolutional builder returns a
model that is exactly: a reshape of the flat length-N vector to an (N, 1)
sequence, a Conv1D stage with `cnn_filters` filters plus normalization, a
second Conv1D stage with twice the filters plus normalization, a global
average pooling back to a flat vector, then the same dense blocks and the
single linear output unit as the dense builder. -/
theorem c7_cnn_builder_structure (input_dim : Nat) (neurons_layers : List Nat)
    (dropout_rates : List Rat) (activation : String) (learning_rate l2_reg : Rat)
    (cnn_filters kernel_size : Nat)
    (h : neurons_layers.length ≤ dropout_rates.length) :
    ∃ m, create_cnn_model input_dim neurons_layers dropout_rates activation
        learning_rate l2_reg cnn_filters kernel_size = some m
      ∧ m.layersList =
          Layer.reshape input_dim 1 ::
            Layer.conv1D cnn_filters kernel_size "same" (some activation) ::
            Layer.batchNorm ::
            Layer.conv1D (cnn_filters * 2) kernel_size "same" (some activation) ::
            Layer.batchNorm ::
            Layer.globalAvgPool1D ::
            stackBlocks activation l2_reg (neurons_layers.zip dropout_rates)
            ++ [Layer.dense 1 none none "glorot_uniform"]
      ∧ m.loss = "mse" ∧ m.metrics = ["mae"]
      ∧ m.optimizer = "Adam" ∧ m.optimizer_lr = learning_rate := by
  refine ⟨_, by rw [create_cnn_model, if_pos h], ?_, rfl, rfl, rfl, rfl⟩
  simp [flatMap_eq_stackBlocks]

/-- Witness for `c7_cnn_builder_structure` at the configuration the
notebook actually uses (filters 32, kernel 3, elu, four hidden layers). -/
theorem c7_cnn_builder_structure_witness :
    [(256 : Nat), 128, 64, 32].length ≤ [(1 : Rat)/2, 2/5, 3/10, 1/5].length
  ∧ ∃ m, create_cnn_model 10 [256, 128, 64, 32] [1/2, 2/5, 3/10, 1/5] ("elu")
        (1/2000) (1/2000) 32 3 = some m
      ∧ m.layersList =
          Layer.reshape 10 1 ::
            Layer.conv1D 32 3 "same" (some "elu") ::
            Layer.batchNorm ::
            Layer.conv1D (32 * 2) 3 "same" (some "elu") ::
            Layer.batchNorm ::
            Layer.globalAvgPool1D ::
            stackBlocks ("elu") (1/2000)
              ([(256 : Nat), 128, 64, 32].zip [(1 : Rat)/2, 2/5, 3/10, 1/5])
            ++ [Layer.dense 1 none none "glorot_uniform"]
      ∧ m.loss = "mse" ∧ m.metrics = ["mae"]
      ∧ m.optimizer = "Adam" ∧ m.optimizer_lr = 1/2000 :=
  ⟨by decide,
   c7_cnn_builder_structure 10 [256, 128, 64, 32] [1/2, 2/5, 3/10, 1/5] ("elu")
     (1/2000) (1/2000) 32 3 (by decide)⟩

/-- The hyperparameter configuration sampled by one Optuna trial. -/
structure TrialConfig where
  n_layers : Nat
  n_units : List Nat
  dropouts : List Rat
  activation : String
  learning_rate : Rat
  l2_reg : Rat
  batch_size : Nat

/-- Modelled from the spec: `trial.suggest_int(name, lo, hi)` of the
external Optuna sampler returns an integer in `[lo, hi]`; the raw draw `r`
is folded into the declared range. -/
def suggest_int (lo hi r : Nat) : Nat := lo + r % (hi + 1 - lo)

/-- Modelled from the spec: `trial.suggest_float(name, lo, hi)` (with or
without `log=True`) returns a value in `[lo, hi]`; `log=True` changes only
the sampling distribution, not the support.  The raw draw `u` is folded
into the declared range through its fractional part. -/
def suggest_float (lo hi : Rat) (u : Rat) : Rat := lo + (hi - lo) * Int.fract u

/-- Modelled from the spec: `trial.suggest_categorical(name, choices)`
returns one of the choices. -/
def suggest_categorical {α : Type} (choices : List α) (d : α) (r : Nat) : α :=
  choices.getD (r % choices.length) d

/-- The raw randomness the Optuna sampler feeds into one trial — one field
per named `suggest_*` call site in `objective` (per-layer calls are
indexed by the layer number appearing in the parameter name). -/
structure TrialRng where
  n_layers_r : Nat
  units_r : Nat → Nat
  dropout_r : Nat → Rat
  activation_r : Nat
  lr_r : Rat
  l2_r : Rat
  batch_r : Nat

/-- The hyperparameter-sampling part of `objective` (notebook lines
156-171): `n_layers = suggest_int("n_layers", 1, 5)`; per layer
`suggest_int(f"n_units_l{ }", 16, 512)` and
`suggest_float(f"dropout_l{ }", 0.1, 0.5)`; activation from
`["relu", "elu", "selu"]`; `learning_rate` log-uniform in `[1e-5, 1e-2]`;
`l2_reg` log-uniform in `[1e-6, 1e-3]`; batch size from
`[16, 32, 64, 128]`. -/
def objectiveConfig (rng : TrialRng) : TrialConfig :=
  let n := suggest_int 1 5 rng.n_layers_r
  { n_layers := n
    n_units := (List.range n).map (fun i => suggest_int 16 512 (rng.units_r i))
    dropouts := (List.range n).map
      (fun i => suggest_float (1/10) (1/2) (rng.dropout_r i))
    activation := suggest_categorical ["relu", "elu", "selu"] "relu" rng.activation_r
    learning_rate := suggest_float (1/100000) (1/100) rng.lr_r
    l2_reg := suggest_float (1/1000000) (1/1000) rng.l2_r
    batch_size := suggest_categorical [16, 32, 64, 128] 16 rng.batch_r }

/-- The trial score of `objective` (lines 174-201): the model built from
the sampled configuration is trained by the external keras runtime —
abstracted as the oracle `train` mapping a configuration to the per-epoch
`val_mae` history of that run — and the trial returns
`min(history.history["val_mae"])`.  Python's `min` raises on an empty
sequence; that partiality is `List.min?`. -/
def objective (train : TrialConfig → List Rat) (rng : TrialRng) : Option Rat :=
  (train (objectiveConfig rng)).min?

/-- `study.optimize(objective, n_trials=50)`: the fixed trial budget. -/
def n_trials : Nat := 50

/-- Modelled from the spec: `study.best_trial.value` of a
`direction="minimize"` study — the least of the per-trial scores. -/
def study_best_value (train : TrialConfig → List Rat)
    (rngs : List TrialRng) : Option Rat :=
  (rngs.filterMap (objective train)).min?

lemma min?_spec {xs : List Rat} {a : Rat} (h : xs.min? = some a) :
    a ∈ xs ∧ ∀ b ∈ xs, a ≤ b := by
  refine ⟨List.min?_mem (fun x y => min_choice x y) h, ?_⟩
  exact (List.le_min?_iff (fun x y z => le_min_iff) h).mp (le_refl a)

lemma min?_isSome_of_ne_nil {xs : List Rat} (h : xs ≠ []) :
    ∃ a, xs.min? = some a := by
  cases hm : xs.min? with
  | none => exact absurd (List.min?_eq_none_iff.mp hm) h
  | some a => exact ⟨a, rfl⟩

lemma suggest_int_mem (lo hi r : Nat) (hle : lo ≤ hi) :
    lo ≤ suggest_int lo hi r ∧ suggest_int lo hi r ≤ hi := by
  unfold suggest_int
  have hpos : 0 < hi + 1 - lo := by omega
  have := Nat.mod_lt r hpos
  omega

lemma suggest_float_mem (lo hi u : Rat) (hle : lo ≤ hi) :
    lo ≤ suggest_float lo hi u ∧ suggest_float lo hi u ≤ hi := by
  unfold suggest_float
  have h0 : (0:Rat) ≤ Int.fract u := Int.fract_nonneg u
  have h1 : Int.fract u < 1 := Int.fract_lt_one u
  constructor
  · nlinarith
  · nlinarith

lemma suggest_categorical_mem {α : Type} (choices : List α) (d : α) (r : Nat)
    (hne : choices ≠ []) : suggest_categorical choices d r ∈ choices := by
  unfold suggest_categorical
  have hlen : 0 < choices.length := List.length_pos.mpr hne
  have hlt : r % choices.length < choices.length := Nat.mod_lt r hlen
  rw [List.getD_eq_getElem?_getD, List.getElem?_eq_getElem hlt]
  exact List.getElem_mem hlt

/-- C5: every sampled trial configuration lies in the declared ranges
(layer count in [1,5]; per-layer width in [16,512] and dropout in
[0.1,0.5], one each per layer; activation among relu/elu/selu; learning
rate in [1e-5,1e-2]; L2 strength in [1e-6,1e-3]; batch size among
16/32/64/128); a trial's score is the minimum validation-MAE value of its
training history; and over the fixed 50-trial budget the study's best
value is attained by some trial and is a lower bound of every trial's
score. -/
theorem c5_search_ranges_and_argmin (train : TrialConfig → List Rat)
    (rng : TrialRng) (rngs : List TrialRng) (h50 : rngs.length = n_trials)
    (htr : ∀ cfg, train cfg ≠ []) :
    n_trials = 50
  ∧ (1 ≤ (objectiveConfig rng).n_layers ∧ (objectiveConfig rng).n_layers ≤ 5)
  ∧ (objectiveConfig rng).n_units.length = (objectiveConfig rng).n_layers
  ∧ (∀ u ∈ (objectiveConfig rng).n_units, 16 ≤ u ∧ u ≤ 512)
  ∧ (objectiveConfig rng).dropouts.length = (objectiveConfig rng).n_layers
  ∧ (∀ d ∈ (objectiveConfig rng).dropouts, 1/10 ≤ d ∧ d ≤ 1/2)
  ∧ (objectiveConfig rng).activation ∈ ["relu", "elu", "selu"]
  ∧ (1/100000 ≤ (objectiveConfig rng).learning_rate
      ∧ (objectiveConfig rng).learning_rate ≤ 1/100)
  ∧ (1/1000000 ≤ (objectiveConfig rng).l2_reg
      ∧ (objectiveConfig rng).l2_reg ≤ 1/1000)
  ∧ (objectiveConfig rng).batch_size ∈ [16, 32, 64, 128]
  ∧ (∃ s, objective train rng = some s ∧ s ∈ train (objectiveConfig rng)
        ∧ ∀ x ∈ train (objectiveConfig rng), s ≤ x)
  ∧ (∃ v, study_best_value train rngs = some v
        ∧ (∃ r ∈ rngs, objective train r = some v)
        ∧ ∀ r ∈ rngs, ∀ s, objective train r = some s → v ≤ s) := by
  refine ⟨rfl, ?_, ?_, ?_, ?_, ?_, ?_, ?_, ?_, ?_, ?_, ?_⟩
  · exact suggest_int_mem 1 5 rng.n_layers_r (by norm_num)
  · simp [objectiveConfig]
  · intro u hu
    simp only [objectiveConfig, List.mem_map] at hu
    obtain ⟨i, _, rfl⟩ := hu
    exact suggest_int_mem 16 512 (rng.units_r i) (by norm_num)
  · simp [objectiveConfig]
  · intro d hd
    simp only [objectiveConfig, List.mem_map] at hd
    obtain ⟨i, _, rfl⟩ := hd
    exact suggest_float_mem (1/10) (1/2) (rng.dropout_r i) (by norm_num)
  · exact suggest_categorical_mem _ _ _ (by simp)
  · exact suggest_float_mem (1/100000) (1/100) rng.lr_r (by norm_num)
  · exact suggest_float_mem (1/1000000) (1/1000) rng.l2_r (by norm_num)
  · exact suggest_categorical_mem _ _ _ (by simp)
  · obtain ⟨s, hs⟩ := min?_isSome_of_ne_nil (htr (objectiveConfig rng))
    obtain ⟨hmem, hle⟩ := min?_spec hs
    exact ⟨s, hs, hmem, hle⟩
  · obtain ⟨r0, hr0⟩ : ∃ r0, r0 ∈ rngs := by
      cases rngs with
      | nil => simp [n_trials] at h50
      | cons r rs => exact ⟨r, List.mem_cons_self r rs⟩
    obtain ⟨s0, hs0⟩ := min?_isSome_of_ne_nil (htr (objectiveConfig r0))
    have hscore0 : objective train r0 = some s0 := hs0
    have hne : rngs.filterMap (objective train) ≠ [] :=
      List.ne_nil_of_mem (List.mem_filterMap.mpr ⟨r0, hr0, hscore0⟩)
    obtain ⟨v, hv⟩ := min?_isSome_of_ne_nil hne
    obtain ⟨hvmem, hvle⟩ := min?_spec hv
    obtain ⟨r1, hr1, hobj1⟩ := List.mem_filterMap.mp hvmem
    refine ⟨v, hv, ⟨r1, hr1, hobj1⟩, ?_⟩
    intro r hr s hs
    exact hvle s (List.mem_filterMap.mpr ⟨r, hr, hs⟩)

/-- The constant training oracle used by the search witness. -/
def trainW : TrialConfig → List Rat := fun _ => [0]

/-- A fixed raw-randomness source used by the search witness. -/
def rngW : TrialRng := ⟨0, fun _ => 0, fun _ => 0, 0, 0, 0, 0⟩

/-- Witness for `c5_search_ranges_and_argmin` with a constant one-epoch
training oracle over a 50-trial list. -/
theorem c5_search_ranges_and_argmin_witness :
    (List.replicate 50 rngW).length = n_trials
  ∧ (∀ cfg, trainW cfg ≠ [])
  ∧ (∃ v, study_best_value trainW (List.replicate 50 rngW) = some v
        ∧ (∃ r ∈ List.replicate 50 rngW, objective trainW r = some v)
        ∧ ∀ r ∈ List.replicate 50 rngW, ∀ s,
            objective trainW r = some s → v ≤ s) :=
  ⟨by simp [n_trials], fun cfg => List.cons_ne_nil 0 [],
   (c5_search_ranges_and_argmin trainW rngW (List.replicate 50 rngW)
      (by simp [n_trials]) (fun cfg => List.cons_ne_nil 0 [])
     ).2.2.2.2.2.2.2.2.2.2.2⟩

/-- Modelled from the spec: the categories a sklearn
`OneHotEncoder(handle_unknown="ignore")` learns at fit time for one
column — the distinct values seen in that column (sklearn sorts them; the
order is irrelevant to the properties stated here). -/
def oneHotCategories (cells : List Cell) : List Cell := cells.dedup

/-- Modelled from the spec: transform of one cell by a fitted one-hot
encoder — an indicator vector over the fitted categories; with
`handle_unknown="ignore"` a value unseen at fit time yields the all-zero
block instead of raising. -/
def oneHotEncode (cats : List Cell) (v : Cell) : List Rat :=
  cats.map (fun c => if v = c then 1 else 0)

/-- The categorical side of the fitted `ColumnTransformer`: one learned
category list per categorical column of the fit frame. -/
def fitOneHot (t : Table) (ccols : List String) : List (String × List Cell) :=
  ccols.map (fun c => (c, oneHotCategories (t.col c)))

/-- Modelled from the spec: applying the fitted `ColumnTransformer` to one
row.  The numeric pipeline (KNNImputer → PowerTransformer →
StandardScaler) maps each numeric column to exactly one output column; its
learned per-column mapping, frozen at fit time, is abstracted as `ν`.  The
categorical columns each contribute their one-hot block. -/
def transformRow (ν : String → List Cell → Rat) (ncols : List String)
    (fitted : List (String × List Cell)) (header : List String)
    (row : List Cell) : List Rat :=
  (ncols.map (fun c => ν c row)) ++
    (fitted.flatMap (fun p => oneHotEncode p.2 (getCell header row p.1)))

/-- C8: the fitted transform's output width is the number of numeric
columns plus the total number of fitted categories — identical for every
row it is applied to, so the train and test calls produce the same number
of output columns — and a categorical value unseen at fit time one-hot
encodes to the all-zero block rather than raising. -/
theorem c8_transform_width_and_unknown_policy :
    (∀ (ν : String → List Cell → Rat) (ncols : List String)
        (fitted : List (String × List Cell)) (header : List String)
        (row : List Cell),
      (transformRow ν ncols fitted header row).length
        = ncols.length + (fitted.map (fun p => p.2.length)).sum)
  ∧ (∀ (ν : String → List Cell → Rat) (ncols ccols : List String)
        (tfit : Table) (h1 h2 : List String) (r1 r2 : List Cell),
      (transformRow ν ncols (fitOneHot tfit ccols) h1 r1).length
        = (transformRow ν ncols (fitOneHot tfit ccols) h2 r2).length)
  ∧ (∀ (cats : List Cell) (v : Cell), v ∉ cats →
      oneHotEncode cats v = List.replicate cats.length 0) := by
  have hw : ∀ (ν : String → List Cell → Rat) (ncols : List String)
      (fitted : List (String × List Cell)) (header : List String)
      (row : List Cell),
      (transformRow ν ncols fitted header row).length
        = ncols.length + (fitted.map (fun p => p.2.length)).sum := by
    intro ν ncols fitted header row
    unfold transformRow
    rw [List.length_append, List.length_map]
    congr 1
    unfold List.flatMap
    rw [List.length_flatten, List.map_map]
    congr 1
    apply List.map_congr_left
    intro p _
    simp [oneHotEncode]
  refine ⟨hw, ?_, ?_⟩
  · intro ν ncols ccols tfit h1 h2 r1 r2
    rw [hw, hw]
  · intro cats v hv
    refine List.eq_replicate_iff.mpr ⟨by simp [oneHotEncode], ?_⟩
    intro b hb
    simp only [oneHotEncode, List.mem_map] at hb
    obtain ⟨c, hc, rfl⟩ := hb
    rw [if_neg]
    intro h
    exact hv (h ▸ hc)

/-- Witness for `c8_transform_width_and_unknown_policy`: a level unseen
among the two fitted categories maps to the zero block of width 2. -/
theorem c8_transform_width_and_unknown_policy_witness :
    (Cell.str "unseen") ∉ [Cell.str "a", Cell.str "b"]
  ∧ oneHotEncode [Cell.str "a", Cell.str "b"] (Cell.str "unseen")
      = List.replicate 2 0 :=
  ⟨by decide,
   c8_transform_width_and_unknown_policy.2.2 [Cell.str "a", Cell.str "b"]
     (Cell.str "unseen") (by decide)⟩

end Lucas
